import Mathlib

/-!
# MarketNews core logic — verification development

Shallow embedding of the decision, scheduling, ranking and persistence logic
of the MarketNews pipeline, together with theorems about it.

Conventions used throughout:
* Python floats carrying scores are modelled as rationals (`ℚ`); the embedded
  code only ever compares and averages them.
* UTC timestamps are modelled as integers (microseconds, with
  `datetime.min` at `0`); local Eastern wall-clock instants are modelled by
  their weekday plus microseconds after local midnight.
* A Python value that may be `None` is modelled as an `Option`.
* Fallible calls are modelled with `Except`/`Bool` outcome parameters.
-/

namespace MarketNews

/-- ASCII lower-casing of a single character, as Python `str.lower` acts on
the ASCII range (the only range the embedded code ever feeds it:
sentiment labels such as "Bullish"/"Bearish"/"Neutral"). -/
def lowerChar (c : Char) : Char :=
  if 65 ≤ c.toNat ∧ c.toNat ≤ 90 then Char.ofNat (c.toNat + 32) else c

/-- Python `str.lower()` on ASCII strings. -/
def pyLower (s : String) : String := ⟨s.data.map lowerChar⟩

/-- Python `min` over a list of numbers; the `[]` case is never consulted by
the embedded code (Python `min([])` would raise, and every call site guards
against the empty list first). -/
def pyMin : List ℚ → ℚ
  | [] => 0
  | x :: xs => xs.foldl min x

/-- `Counter(l).most_common(1)[0][1]`: the count of the most frequent element
of `l` (`0` for the empty list). -/
def leaderCount (l : List String) : ℕ :=
  (l.map (fun s => l.count s)).foldr max 0

/-- One element of the `analyses` list handed to
`DiscordNotifier.should_send_alert` — a dict built in
`_send_notification_if_needed`; only the `sentiment` and `impact_score`
entries are consulted by the decision.  `none` models a missing/unusable
value (`should_send_alert` coerces those to `""` / `0`). -/
structure AnalysisDict where
  sentiment : Option String
  impact_score : Option ℚ
deriving DecidableEq

/-- `str(a.get("sentiment", "")).lower()`. -/
def sentimentLabel (a : AnalysisDict) : String := pyLower (a.sentiment.getD "")

/-- `float(a.get("impact_score", 0))` with the `except` branch coercing an
unparsable value to `0.0`. -/
def impactValue (a : AnalysisDict) : ℚ := a.impact_score.getD 0

/-- `DiscordNotifier.should_send_alert` (discord.py).  `threshold` is
`self.impact_threshold`.  The four rejection gates and the final majority
test mirror the source line by line:

1. `if not analyses: return False`
2. `if not impacts or min(impacts) < self.impact_threshold: return False`
3. `if sentiments and all(s == "neutral" for s in sentiments): return False`
4. `if len(sentiments) == 3 and sentiments.count("neutral") >= 2: return False`
5. `leader_count >= (len(sentiments) + 1) // 2`
-/
def shouldSendAlert (threshold : ℚ) (analyses : List AnalysisDict) : Bool :=
  if analyses = [] then
    false
  else if (analyses.map impactValue) = [] ∨ pyMin (analyses.map impactValue) < threshold then
    false
  else if (analyses.map sentimentLabel) ≠ [] ∧
      (∀ s ∈ analyses.map sentimentLabel, s = "neutral") then
    false
  else if (analyses.map sentimentLabel).length = 3 ∧
      2 ≤ (analyses.map sentimentLabel).count "neutral" then
    false
  else
    decide (((analyses.map sentimentLabel).length + 1) / 2 ≤
      leaderCount (analyses.map sentimentLabel))

/-! ## Helper lemmas about `pyMin`, `leaderCount` and counting -/

theorem le_foldl_min (t x : ℚ) (xs : List ℚ) (hx : t ≤ x) (hxs : ∀ y ∈ xs, t ≤ y) :
    t ≤ xs.foldl min x := by
  induction xs generalizing x with
  | nil => simpa using hx
  | cons y ys ih =>
    simp only [List.foldl_cons]
    exact ih (min x y) (le_min hx (hxs y (by simp))) (fun z hz => hxs z (by simp [hz]))

theorem le_pyMin (t : ℚ) (l : List ℚ) (hne : l ≠ []) (h : ∀ x ∈ l, t ≤ x) :
    t ≤ pyMin l := by
  cases l with
  | nil => exact absurd rfl hne
  | cons x xs =>
    exact le_foldl_min t x xs (h x (by simp)) (fun y hy => h y (by simp [hy]))

theorem mem_le_foldr_max (n : ℕ) (ns : List ℕ) (h : n ∈ ns) : n ≤ ns.foldr max 0 := by
  induction ns with
  | nil => cases h
  | cons m ms ih =>
    rcases List.mem_cons.mp h with h' | h'
    · simp [h', le_max_iff]
    · simp only [List.foldr_cons, le_max_iff]
      exact Or.inr (ih h')

theorem foldr_max_zero_or_mem (ns : List ℕ) : ns.foldr max 0 = 0 ∨ ns.foldr max 0 ∈ ns := by
  induction ns with
  | nil => left; rfl
  | cons m ms ih =>
    simp only [List.foldr_cons]
    rcases le_or_lt m (ms.foldr max 0) with h | h
    · rw [max_eq_right h]
      rcases ih with h0 | hmem
      · left; exact h0
      · right; exact List.mem_cons_of_mem _ hmem
    · rw [max_eq_left h.le]
      right; exact List.mem_cons_self _ _

theorem count_le_leaderCount (s : String) (l : List String) (h : s ∈ l) :
    l.count s ≤ leaderCount l := by
  exact mem_le_foldr_max _ _ (List.mem_map.mpr ⟨s, h, rfl⟩)

theorem exists_of_two_le_leaderCount (l : List String) (h : 2 ≤ leaderCount l) :
    ∃ s ∈ l, 2 ≤ l.count s := by
  rcases foldr_max_zero_or_mem (l.map (fun s => l.count s)) with h0 | hmem
  · rw [leaderCount] at h; omega
  · rcases List.mem_map.mp hmem with ⟨s, hs, hcount⟩
    exact ⟨s, hs, by rw [leaderCount] at h; omega⟩

theorem count_add_count_le_length (a b : String) (l : List String) (hab : a ≠ b) :
    l.count a + l.count b ≤ l.length := by
  induction l with
  | nil => simp
  | cons x xs ih =>
    by_cases hxa : x = a
    · subst hxa
      rw [List.count_cons_self, List.count_cons_of_ne (fun h => hab h.symm)]
      simpa [Nat.add_right_comm] using Nat.add_le_add_right ih 1
    · rw [List.count_cons_of_ne (fun h => hxa h.symm)]
      by_cases hxb : x = b
      · subst hxb
        rw [List.count_cons_self]
        simpa [← Nat.add_assoc] using Nat.add_le_add_right ih 1
      · rw [List.count_cons_of_ne (fun h => hxb h.symm)]
        simpa using Nat.le_succ_of_le ih

/-! ## Alert-eligibility claims -/

/-- C5: for every non-empty analysis list whose minimum impact value (missing
or unparsable scores coerced to `0`) is below the threshold,
`should_send_alert` returns `false`, whatever the sentiment labels. -/
theorem alert_requires_min_impact (threshold : ℚ) (analyses : List AnalysisDict)
    (hne : analyses ≠ []) (hmin : pyMin (analyses.map impactValue) < threshold) :
    shouldSendAlert threshold analyses = false := by
  rw [shouldSendAlert, if_neg hne, if_pos (Or.inr hmin)]

/-- Witness for C5: one Bullish analysis with impact 0 against threshold 1. -/
theorem alert_requires_min_impact_witness :
    shouldSendAlert 1 [⟨some "Bullish", some 0⟩] = false :=
  alert_requires_min_impact 1 [⟨some "Bullish", some 0⟩] (by decide) (by decide)

/-- C4: for an analysis list of exactly 3 analyses, all of whose impact values
meet the threshold, `should_send_alert` is `true` iff some non-neutral
sentiment label occurs at least twice. -/
theorem three_model_alert_iff_agreeing_nonneutral_pair (threshold : ℚ)
    (analyses : List AnalysisDict) (hlen : analyses.length = 3)
    (himp : ∀ a ∈ analyses, threshold ≤ impactValue a) :
    shouldSendAlert threshold analyses = true ↔
      ∃ s, s ≠ "neutral" ∧ 2 ≤ (analyses.map sentimentLabel).count s := by
  have hne : analyses ≠ [] := by
    intro h; rw [h] at hlen; simp at hlen
  have hmapne : analyses.map sentimentLabel ≠ [] := by simpa using hne
  have hmaplen : (analyses.map sentimentLabel).length = 3 := by simp [hlen]
  have hminle : threshold ≤ pyMin (analyses.map impactValue) := by
    refine le_pyMin threshold _ (by simpa using hne) ?_
    intro x hx
    rcases List.mem_map.mp hx with ⟨a, ha, rfl⟩
    exact himp a ha
  rw [shouldSendAlert, if_neg hne,
    if_neg (not_or.mpr ⟨by simpa using hne, not_lt.mpr hminle⟩)]
  by_cases hall : (analyses.map sentimentLabel) ≠ [] ∧
      (∀ s ∈ analyses.map sentimentLabel, s = "neutral")
  · rw [if_pos hall]
    simp only [Bool.false_eq_true, false_iff]
    rintro ⟨s, hsne, hs2⟩
    have hmem : s ∈ analyses.map sentimentLabel := by
      have : 0 < (analyses.map sentimentLabel).count s := by omega
      exact List.count_pos_iff.mp this
    exact hsne (hall.2 s hmem)
  · rw [if_neg hall]
    by_cases hn2 : 2 ≤ (analyses.map sentimentLabel).count "neutral"
    · rw [if_pos ⟨hmaplen, hn2⟩]
      simp only [Bool.false_eq_true, false_iff]
      rintro ⟨s, hsne, hs2⟩
      have := count_add_count_le_length "neutral" s (analyses.map sentimentLabel)
        (fun h => hsne h.symm)
      rw [hmaplen] at this
      omega
    · rw [if_neg (fun h => hn2 h.2), hmaplen]
      rw [decide_eq_true_iff]
      constructor
      · intro hl
        have hl2 : 2 ≤ leaderCount (analyses.map sentimentLabel) := by omega
        rcases exists_of_two_le_leaderCount _ hl2 with ⟨s, hmem, hcount⟩
        refine ⟨s, ?_, hcount⟩
        intro hsn
        rw [hsn] at hcount
        exact hn2 hcount
      · rintro ⟨s, hsne, hs2⟩
        have hmem : s ∈ analyses.map sentimentLabel :=
          List.count_pos_iff.mp (by omega)
        have := count_le_leaderCount s _ hmem
        omega

/-- Witness for C4: labels (Bearish, Bearish, Bullish) with threshold 0. -/
theorem three_model_alert_witness :
    shouldSendAlert 0
      [⟨some "Bearish", some 0⟩, ⟨some "Bearish", some 0⟩, ⟨some "Bullish", some 0⟩] = true :=
  (three_model_alert_iff_agreeing_nonneutral_pair 0
      [⟨some "Bearish", some 0⟩, ⟨some "Bearish", some 0⟩, ⟨some "Bullish", some 0⟩]
      (by decide) (by decide)).mpr ⟨"bearish", by decide, by decide⟩

/-- C10: for any two analyses whose (lower-cased) labels are one neutral and
one non-neutral, both impacts meeting the threshold, `should_send_alert`
returns `true`. -/
theorem two_model_one_neutral_alerts (threshold : ℚ) (a b : AnalysisDict)
    (hlab : (sentimentLabel a = "neutral" ∧ sentimentLabel b ≠ "neutral") ∨
      (sentimentLabel a ≠ "neutral" ∧ sentimentLabel b = "neutral"))
    (ha : threshold ≤ impactValue a) (hb : threshold ≤ impactValue b) :
    shouldSendAlert threshold [a, b] = true := by
  have hmin : pyMin ([a, b].map impactValue) = min (impactValue a) (impactValue b) := by
    simp [pyMin]
  rw [shouldSendAlert, if_neg (by simp),
    if_neg (not_or.mpr ⟨by simp, not_lt.mpr (by rw [hmin]; exact le_min ha hb)⟩)]
  have hnotall : ¬ (([a, b].map sentimentLabel) ≠ [] ∧
      (∀ s ∈ [a, b].map sentimentLabel, s = "neutral")) := by
    rintro ⟨-, hall⟩
    rcases hlab with ⟨-, hbne⟩ | ⟨hane, -⟩
    · exact hbne (hall _ (by simp))
    · exact hane (hall _ (by simp))
  rw [if_neg hnotall, if_neg (by simp)]
  have hmem : sentimentLabel a ∈ [a, b].map sentimentLabel := by simp
  have hcount : 1 ≤ ([a, b].map sentimentLabel).count (sentimentLabel a) :=
    List.count_pos_iff.mpr hmem
  have hleader := count_le_leaderCount (sentimentLabel a) ([a, b].map sentimentLabel) hmem
  simp only [List.map_cons, List.map_nil, List.length_cons, List.length_nil]
  rw [decide_eq_true_iff]
  simp only [List.map_cons, List.map_nil] at hleader hcount
  omega

/-- Witness for C10: (Neutral, Bullish) with both impacts 1 and threshold 1. -/
theorem two_model_one_neutral_alerts_witness :
    shouldSendAlert 1 [⟨some "Neutral", some 1⟩, ⟨some "Bullish", some 1⟩] = true :=
  two_model_one_neutral_alerts 1 ⟨some "Neutral", some 1⟩ ⟨some "Bullish", some 1⟩
    (Or.inl ⟨by decide, by decide⟩) (by decide) (by decide)

/-! ## Digest ranker (send_digest.rank_articles) -/

/-- ASCII upper-casing of a single character (Python `str.upper` on ASCII). -/
def upperChar (c : Char) : Char :=
  if 97 ≤ c.toNat ∧ c.toNat ≤ 122 then Char.ofNat (c.toNat - 32) else c

/-- Python `str.capitalize()` on ASCII strings: first character upper-cased,
the rest lower-cased. -/
def pyCapitalize (s : String) : String :=
  match s.data with
  | [] => ""
  | c :: cs => ⟨upperChar c :: cs.map lowerChar⟩

/-- `_average` (send_digest): drop `None` values, return `None` when nothing
is left, otherwise the arithmetic mean. -/
def pyAverage (values : List (Option ℚ)) : Option ℚ :=
  let cleaned := values.filterMap id
  if cleaned = [] then none else some (cleaned.sum / cleaned.length)

/-- The keys of `Counter(l)` in Python insertion order: the distinct elements
of `l` in order of first occurrence. -/
def distinctsInOrder (l : List String) : List String :=
  l.foldl (fun acc s => if s ∈ acc then acc else acc ++ [s]) []

/-- `sentiment_counts.most_common(1)[0][0] if sentiment_counts else "neutral"`:
the most frequent element, ties resolved in favour of the first-inserted key
(CPython `heapq.nlargest` is stable). -/
def mostCommonLabel (l : List String) : String :=
  match distinctsInOrder l with
  | [] => "neutral"
  | d :: ds => ds.foldl (fun best s => if l.count best < l.count s then s else best) d

/-- An `ArticleAnalysis` ORM row, projected to the columns `rank_articles`
reads (`sentiment`, `sentiment_score`, `impact_score`). -/
structure AnalysisRow where
  sentiment : Option String
  sentiment_score : Option ℚ
  impact_score : Option ℚ
deriving DecidableEq

/-- An `Article` ORM row, projected to the columns the digest pipeline reads.
Timestamps are UTC microseconds with `datetime.min` at `0`. -/
structure Article where
  id : ℕ
  title : String
  source : Option String
  published_at : Option ℤ
  news_url : String
  created_at : ℤ
  included_in_digest_at : Option ℤ
  analyses : List AnalysisRow
deriving DecidableEq

/-- One dictionary of the list `rank_articles` returns. -/
structure RankedEntry where
  article_id : ℕ
  title : String
  source : String
  published_at : Option ℤ
  news_url : String
  sentiment : String
  avg_sentiment_score : ℚ
  avg_impact_score : ℚ
  consensus : Bool
  sentiment_strength : ℚ
deriving DecidableEq

/-- `[str(a.sentiment or "").lower() for a in analyses if a.sentiment]`:
keep analyses whose sentiment is truthy (present and non-empty), lower-cased. -/
def articleSentiments (analyses : List AnalysisRow) : List String :=
  (analyses.filter (fun a =>
    match a.sentiment with
    | none => false
    | some s => s != "")).map (fun a => pyLower (a.sentiment.getD ""))

/-- The body of the `for article in articles` loop of `rank_articles`:
`none` when the article is skipped (`continue`), otherwise the dict appended
to the output. -/
def rankEntry? (article : Article) : Option RankedEntry :=
  if article.analyses = [] then none
  else
    let sentiments := articleSentiments article.analyses
    let consensus :=
      decide ((distinctsInOrder sentiments).length = 1) && decide (3 ≤ article.analyses.length)
    match pyAverage (article.analyses.map (·.sentiment_score)),
        pyAverage (article.analyses.map (·.impact_score)) with
    | some avgSentiment, some avgImpact =>
      some {
        article_id := article.id
        title := article.title
        source := article.source.getD ""
        published_at := article.published_at
        news_url := article.news_url
        sentiment := pyCapitalize (mostCommonLabel sentiments)
        avg_sentiment_score := avgSentiment
        avg_impact_score := avgImpact
        consensus := consensus
        sentiment_strength := |avgSentiment| }
    | _, _ => none

/-- The Python sort key `(consensus, sentiment_strength, avg_impact_score,
published_at or datetime.min)`, compared lexicographically as Python compares
tuples (`False < True` for booleans). -/
def sortKey (e : RankedEntry) : Lex (Bool × Lex (ℚ × Lex (ℚ × ℤ))) :=
  toLex (e.consensus,
    toLex (e.sentiment_strength, toLex (e.avg_impact_score, e.published_at.getD 0)))

/-- `reverse=True` comparison: `a` may come before `b` iff `a`'s key is at
least `b`'s. -/
def keyGE (a b : RankedEntry) : Bool := decide (sortKey b ≤ sortKey a)

/-- `rank_articles` (send_digest): build an entry per eligible article, then a
stable sort, descending on `sortKey` (Python `list.sort(key=..., reverse=True)`). -/
def rankArticles (articles : List Article) : List RankedEntry :=
  (articles.filterMap rankEntry?).mergeSort keyGE

/-- C6: the output of `rank_articles` is ordered by descending
`(consensus, |avg_sentiment|, avg_impact, published_at-or-min)` key; in
particular every consensus item precedes every non-consensus item; and the
output is exactly the per-article entries, permuted.  (`rankArticles` is a
function, so the ordering is deterministic for identical inputs.) -/
theorem rank_articles_sorted_descending (articles : List Article) :
    ((rankArticles articles).Pairwise (fun a b => sortKey b ≤ sortKey a))
    ∧ ((rankArticles articles).Pairwise (fun a b => b.consensus = true → a.consensus = true))
    ∧ (rankArticles articles).Perm (articles.filterMap rankEntry?) := by
  have htrans : ∀ a b c : RankedEntry,
      keyGE a b = true → keyGE b c = true → keyGE a c = true := by
    intro a b c hab hbc
    simp only [keyGE, decide_eq_true_iff] at *
    exact le_trans hbc hab
  have htotal : ∀ a b : RankedEntry, (keyGE a b || keyGE b a) = true := by
    intro a b
    simp only [keyGE, Bool.or_eq_true, decide_eq_true_iff]
    exact le_total (sortKey b) (sortKey a)
  have hsorted := List.sorted_mergeSort htrans htotal (articles.filterMap rankEntry?)
  have hle : (rankArticles articles).Pairwise (fun a b => sortKey b ≤ sortKey a) := by
    refine hsorted.imp ?_
    intro a b h
    simpa [keyGE, decide_eq_true_iff] using h
  refine ⟨hle, ?_, List.mergeSort_perm _ _⟩
  refine hle.imp ?_
  intro a b h hb
  rw [sortKey, sortKey, Prod.Lex.le_iff] at h
  rcases h with hlt | ⟨heq, -⟩
  · rw [hb] at hlt
    cases hac : a.consensus
    · rw [hac] at hlt
      have hlt' : (true : Bool) < false := hlt
      exact absurd hlt' (by decide)
    · rfl
  · rw [hb] at heq; exact heq.symm

/-! ## Digest scheduler (send_digest) -/

/-- `DISPATCH_TOLERANCE = timedelta(minutes=20)`, in microseconds. -/
def DISPATCH_TOLERANCE_US : ℕ := 20 * 60 * 1000000

/-- A local Eastern wall-clock instant: Python `weekday()` (Monday = 0 …
Sunday = 6) plus microseconds after local midnight. -/
structure ETTime where
  weekday : ℕ
  us : ℕ
deriving DecidableEq

/-- One entry of `DIGEST_WINDOWS`. -/
structure DigestWindow where
  digest_type : String
  hour : ℕ
  minute : ℕ
  weekdays : List ℕ
deriving DecidableEq

/-- `DIGEST_WINDOWS` (send_digest). -/
def DIGEST_WINDOWS : List DigestWindow :=
  [⟨"premarket", 6, 30, [0, 1, 2, 3, 4]⟩,
   ⟨"lunch", 12, 0, [0, 1, 2, 3, 4]⟩,
   ⟨"postmarket", 16, 30, [0, 1, 2, 3, 4]⟩,
   ⟨"weekly", 12, 0, [5]⟩]

/-- The microseconds after midnight of a window's target
(`hour`/`minute`, second and microsecond zeroed). -/
def windowTargetUs (w : DigestWindow) : ℕ := (w.hour * 3600 + w.minute * 60) * 1000000

/-- `now_et.replace(hour=w.hour, minute=w.minute, second=0, microsecond=0)`:
same date (hence same weekday), window's time of day. -/
def replaceTime (now : ETTime) (w : DigestWindow) : ETTime :=
  ⟨now.weekday, windowTargetUs w⟩

/-- One iteration of the `for window in DIGEST_WINDOWS` loop of
`determine_pending_digest`: `none` for `continue`, `some` for `return`.
Since `target` shares `now`'s date, the datetime comparison
`target <= now_et <= target + DISPATCH_TOLERANCE` is a comparison of
microseconds after midnight. -/
def windowPending (now : ETTime) (w : DigestWindow) : Option (String × ETTime) :=
  if now.weekday ∈ w.weekdays then
    if windowTargetUs w ≤ now.us ∧ now.us ≤ windowTargetUs w + DISPATCH_TOLERANCE_US then
      some (w.digest_type, replaceTime now w)
    else none
  else none

/-- `determine_pending_digest` (send_digest): the first due window, else none. -/
def determinePendingDigest (now : ETTime) : Option (String × ETTime) :=
  DIGEST_WINDOWS.findSome? (windowPending now)

/-- C7: `determine_pending_digest` returns `(digest_type, target)` exactly when
some configured window has a matching weekday and
`target ≤ now ≤ target + 20 min`; concretely, Tuesday 06:35 yields
`("premarket", Tuesday 06:30)` and Tuesday 07:05 yields none. -/
theorem determine_pending_digest_spec :
    (∀ (now : ETTime) (dtype : String) (sched : ETTime),
      determinePendingDigest now = some (dtype, sched) ↔
        ∃ w ∈ DIGEST_WINDOWS, w.digest_type = dtype ∧ sched = replaceTime now w ∧
          now.weekday ∈ w.weekdays ∧
          windowTargetUs w ≤ now.us ∧ now.us ≤ windowTargetUs w + DISPATCH_TOLERANCE_US)
    ∧ determinePendingDigest ⟨1, (6 * 3600 + 35 * 60) * 1000000⟩ =
        some ("premarket", ⟨1, (6 * 3600 + 30 * 60) * 1000000⟩)
    ∧ determinePendingDigest ⟨1, (7 * 3600 + 5 * 60) * 1000000⟩ = none := by
  refine ⟨?_, by decide, by decide⟩
  intro now dtype sched
  constructor
  · intro h
    rcases List.exists_of_findSome?_eq_some h with ⟨w, hw, hfw⟩
    rw [windowPending] at hfw
    by_cases hmem : now.weekday ∈ w.weekdays
    · rw [if_pos hmem] at hfw
      by_cases hrange : windowTargetUs w ≤ now.us ∧
          now.us ≤ windowTargetUs w + DISPATCH_TOLERANCE_US
      · rw [if_pos hrange] at hfw
        rcases Prod.mk.injEq _ _ _ _ ▸ Option.some.inj hfw with ⟨hd, hs⟩
        exact ⟨w, hw, hd, hs.symm, hmem, hrange.1, hrange.2⟩
      · rw [if_neg hrange] at hfw
        cases hfw
    · rw [if_neg hmem] at hfw
      cases hfw
  · rintro ⟨w, hw, hdt, hsch, hwd, h1, h2⟩
    subst hsch
    subst hdt
    fin_cases hw
    · -- premarket
      have hit : windowPending now ⟨"premarket", 6, 30, [0, 1, 2, 3, 4]⟩ =
          some ("premarket", replaceTime now ⟨"premarket", 6, 30, [0, 1, 2, 3, 4]⟩) := by
        rw [windowPending, if_pos hwd, if_pos ⟨h1, h2⟩]
      simp only [determinePendingDigest, DIGEST_WINDOWS, List.findSome?_cons, hit]
    · -- lunch: the premarket window cannot also be due
      have hpre : windowPending now ⟨"premarket", 6, 30, [0, 1, 2, 3, 4]⟩ = none := by
        rw [windowPending, if_pos hwd]
        exact if_neg (by
          simp only [windowTargetUs, DISPATCH_TOLERANCE_US] at h1 h2 ⊢
          omega)
      have hit : windowPending now ⟨"lunch", 12, 0, [0, 1, 2, 3, 4]⟩ =
          some ("lunch", replaceTime now ⟨"lunch", 12, 0, [0, 1, 2, 3, 4]⟩) := by
        rw [windowPending, if_pos hwd, if_pos ⟨h1, h2⟩]
      simp only [determinePendingDigest, DIGEST_WINDOWS, List.findSome?_cons, hpre, hit]
    · -- postmarket: earlier windows cannot also be due
      have hpre : windowPending now ⟨"premarket", 6, 30, [0, 1, 2, 3, 4]⟩ = none := by
        rw [windowPending, if_pos hwd]
        exact if_neg (by
          simp only [windowTargetUs, DISPATCH_TOLERANCE_US] at h1 h2 ⊢
          omega)
      have hlun : windowPending now ⟨"lunch", 12, 0, [0, 1, 2, 3, 4]⟩ = none := by
        rw [windowPending, if_pos hwd]
        exact if_neg (by
          simp only [windowTargetUs, DISPATCH_TOLERANCE_US] at h1 h2 ⊢
          omega)
      have hit : windowPending now ⟨"postmarket", 16, 30, [0, 1, 2, 3, 4]⟩ =
          some ("postmarket", replaceTime now ⟨"postmarket", 16, 30, [0, 1, 2, 3, 4]⟩) := by
        rw [windowPending, if_pos hwd, if_pos ⟨h1, h2⟩]
      simp only [determinePendingDigest, DIGEST_WINDOWS, List.findSome?_cons,
        hpre, hlun, hit]
    · -- weekly: Saturday is in no Mon–Fri weekday set
      have hwd5 : now.weekday = 5 := by simpa using hwd
      have hpre : windowPending now ⟨"premarket", 6, 30, [0, 1, 2, 3, 4]⟩ = none := by
        rw [windowPending, hwd5]
        exact if_neg (by decide)
      have hlun : windowPending now ⟨"lunch", 12, 0, [0, 1, 2, 3, 4]⟩ = none := by
        rw [windowPending, hwd5]
        exact if_neg (by decide)
      have hpost : windowPending now ⟨"postmarket", 16, 30, [0, 1, 2, 3, 4]⟩ = none := by
        rw [windowPending, hwd5]
        exact if_neg (by decide)
      have hit : windowPending now ⟨"weekly", 12, 0, [5]⟩ =
          some ("weekly", replaceTime now ⟨"weekly", 12, 0, [5]⟩) := by
        rw [windowPending, if_pos hwd, if_pos ⟨h1, h2⟩]
      simp only [determinePendingDigest, DIGEST_WINDOWS, List.findSome?_cons,
        hpre, hlun, hpost, hit]

/-- `DEFAULT_LOOKBACK` (send_digest), in microseconds. -/
def DEFAULT_LOOKBACK : List (String × ℤ) :=
  [("premarket", 24 * 3600 * 1000000),
   ("lunch", 6 * 3600 * 1000000),
   ("postmarket", 6 * 3600 * 1000000),
   ("weekly", 7 * 24 * 3600 * 1000000)]

/-- Python `dict.get(key, default)` on a small literal dict. -/
def dictGet (d : List (String × ℤ)) (key : String) (default : ℤ) : ℤ :=
  match d.find? (fun kv => kv.1 == key) with
  | some kv => kv.2
  | none => default

/-- `calculate_period_start` (send_digest): the watermark if a prior digest of
this type exists, else `now - DEFAULT_LOOKBACK.get(digest_type, 24h)`. -/
def calculatePeriodStart (digestType : String) (lastSentAt : Option ℤ) (nowUtc : ℤ) : ℤ :=
  match lastSentAt with
  | some t => t
  | none => nowUtc - dictGet DEFAULT_LOOKBACK digestType (24 * 3600 * 1000000)

/-- C8: the period start is the previous digest's sent time when one exists,
else `now` minus the per-type default lookback (premarket 24 h, lunch 6 h,
postmarket 6 h, weekly 7 d). -/
theorem calculate_period_start_watermark :
    (∀ (digestType : String) (nowUtc t : ℤ),
      calculatePeriodStart digestType (some t) nowUtc = t)
    ∧ (∀ nowUtc : ℤ,
      calculatePeriodStart "premarket" none nowUtc = nowUtc - 24 * 3600 * 1000000)
    ∧ (∀ nowUtc : ℤ,
      calculatePeriodStart "lunch" none nowUtc = nowUtc - 6 * 3600 * 1000000)
    ∧ (∀ nowUtc : ℤ,
      calculatePeriodStart "postmarket" none nowUtc = nowUtc - 6 * 3600 * 1000000)
    ∧ (∀ nowUtc : ℤ,
      calculatePeriodStart "weekly" none nowUtc = nowUtc - 7 * 24 * 3600 * 1000000) :=
  ⟨fun _ _ _ => rfl, fun _ => rfl, fun _ => rfl, fun _ => rfl, fun _ => rfl⟩

/-- C9 counterexample: a digest type matching no window configuration does not
raise — `calculate_period_start` produces an ordinary result, silently
applying the 24-hour default of `DEFAULT_LOOKBACK.get(digest_type,
timedelta(hours=24))`; no code path of the scheduler raises. -/
theorem unknown_digest_type_yields_default_lookback :
    calculatePeriodStart "halfday" none 0 = -(24 * 3600 * 1000000) := by decide

/-- C9 amended: for a digest type matching no window configuration the
scheduler does not raise; `calculate_period_start` falls back to the default
24-hour lookback (and still returns the watermark when one exists). -/
theorem scheduler_defaults_unknown_digest_type (digestType : String)
    (h : digestType ∉ ["premarket", "lunch", "postmarket", "weekly"]) :
    (∀ nowUtc : ℤ,
      calculatePeriodStart digestType none nowUtc = nowUtc - 24 * 3600 * 1000000)
    ∧ (∀ nowUtc t : ℤ, calculatePeriodStart digestType (some t) nowUtc = t) := by
  simp only [List.mem_cons, List.mem_singleton, List.not_mem_nil, or_false, not_or] at h
  constructor
  · intro nowUtc
    have hfind : DEFAULT_LOOKBACK.find? (fun kv => kv.1 == digestType) = none := by
      rw [List.find?_eq_none]
      rintro ⟨k, v⟩ hkv
      simp only [DEFAULT_LOOKBACK, List.mem_cons, List.mem_singleton,
        List.not_mem_nil, or_false, Prod.mk.injEq] at hkv
      rcases hkv with ⟨hk, -⟩ | ⟨hk, -⟩ | ⟨hk, -⟩ | ⟨hk, -⟩ <;>
        subst hk <;>
        simp only [beq_iff_eq] <;>
        intro he <;>
        exact absurd he.symm (by tauto)
    rw [calculatePeriodStart, dictGet, hfind]
  · intro _ _
    rfl

/-- Witness for the amended C9 at the concrete type "adhoc". -/
theorem scheduler_defaults_unknown_digest_type_witness :
    calculatePeriodStart "adhoc" none 100 = 100 - 24 * 3600 * 1000000 :=
  (scheduler_defaults_unknown_digest_type "adhoc" (by decide)).1 100

/-! ## Analyzer fan-out (shared/services/analyzers.run_all_analyzers) -/

/-- The validated provider response (`schemas/analysis.AnalysisResult`). -/
structure AnalysisResult where
  summary : Option String
  sentiment : String
  sentiment_score : ℚ
  impact_score : ℚ
  confidence : Option ℚ
  key_topics : List String
deriving DecidableEq

instance {ε α : Type} [DecidableEq ε] [DecidableEq α] : DecidableEq (Except ε α) := fun x y =>
  match x, y with
  | .error e, .error f =>
    if h : e = f then isTrue (by rw [h]) else isFalse (fun hc => by cases hc; exact h rfl)
  | .ok a, .ok b =>
    if h : a = b then isTrue (by rw [h]) else isFalse (fun hc => by cases hc; exact h rfl)
  | .error _, .ok _ => isFalse (fun hc => by cases hc)
  | .ok _, .error _ => isFalse (fun hc => by cases hc)

/-- One analyzer as `run_all_analyzers` sees it: its `provider` and `model`
attributes, plus the outcome of its `analyze` call — the call either returns
a validated `AnalysisResult` or raises (`Except.error` carries the message). -/
structure Analyzer where
  provider : String
  model : String
  outcome : Except String AnalysisResult
deriving DecidableEq

/-- `run_all_analyzers` (analyzers.py): every analyzer's `analyze` coroutine is
wrapped with its provider/model tag and awaited through `asyncio.gather`,
which returns the tagged results in analyzer order, or raises as soon as any
task raises.  (Which of several failing tasks' exceptions is surfaced depends
on timing; whether the batch raises does not, and the model surfaces the
first failing analyzer in list order.) -/
def runAllAnalyzers : List Analyzer → Except String (List (String × String × AnalysisResult))
  | [] => .ok []
  | a :: rest =>
    match a.outcome.map (fun r => (a.provider, a.model, r)) with
    | .error e => .error e
    | .ok t =>
      match runAllAnalyzers rest with
      | .error e => .error e
      | .ok ts => .ok (t :: ts)

/-- C3: the fan-out is all-or-nothing — it raises exactly when some provider's
`analyze` call raises, and on success returns exactly one `(provider, model,
result)` tuple per analyzer, in order. -/
theorem run_all_analyzers_all_or_nothing (analyzers : List Analyzer) :
    ((∃ e, runAllAnalyzers analyzers = .error e) ↔
      ∃ a ∈ analyzers, ∃ e, a.outcome = .error e)
    ∧ (∀ results, runAllAnalyzers analyzers = .ok results →
      List.Forall₂
        (fun (a : Analyzer) (t : String × String × AnalysisResult) =>
          t.1 = a.provider ∧ t.2.1 = a.model ∧ a.outcome = .ok t.2.2)
        analyzers results) := by
  induction analyzers with
  | nil =>
    constructor
    · constructor
      · rintro ⟨e, he⟩
        cases he
      · rintro ⟨a, ha, -⟩
        exact absurd ha (List.not_mem_nil a)
    · intro results h
      cases h
      exact List.Forall₂.nil
  | cons a rest ih =>
    cases houtcome : a.outcome with
    | error e =>
      have hrun : runAllAnalyzers (a :: rest) = .error e := by
        rw [runAllAnalyzers, houtcome]
        rfl
      refine ⟨⟨fun _ => ⟨a, by simp, e, houtcome⟩, fun _ => ⟨e, hrun⟩⟩, ?_⟩
      intro results h
      rw [hrun] at h
      cases h
    | ok r =>
      have hrun : runAllAnalyzers (a :: rest) =
          match runAllAnalyzers rest with
          | .error e => .error e
          | .ok ts => .ok ((a.provider, a.model, r) :: ts) := by
        rw [runAllAnalyzers, houtcome]
        rfl
      constructor
      · constructor
        · rintro ⟨e, he⟩
          rw [hrun] at he
          cases hrest : runAllAnalyzers rest with
          | error f =>
            rcases ih.1.mp ⟨f, hrest⟩ with ⟨b, hb, hbe⟩
            exact ⟨b, List.mem_cons_of_mem a hb, hbe⟩
          | ok ts =>
            rw [hrest] at he
            cases he
        · rintro ⟨b, hb, f, hbf⟩
          rcases List.mem_cons.mp hb with rfl | hb'
          · rw [houtcome] at hbf
            cases hbf
          · rcases ih.1.mpr ⟨b, hb', f, hbf⟩ with ⟨g, hg⟩
            rw [hrun, hg]
            exact ⟨g, rfl⟩
      · intro results h
        rw [hrun] at h
        cases hrest : runAllAnalyzers rest with
        | error f =>
          rw [hrest] at h
          cases h
        | ok ts =>
          rw [hrest] at h
          cases h
          exact List.Forall₂.cons ⟨rfl, rfl, houtcome⟩ (ih.2 ts hrest)

/-- Witness for C3: a batch whose second analyzer raises surfaces an error. -/
theorem run_all_analyzers_witness :
    ∃ e, runAllAnalyzers
      [⟨"google", "gemini-2.5-pro", Except.ok ⟨none, "Neutral", 0, 0, none, []⟩⟩,
       ⟨"anthropic", "claude-sonnet-4-5-20250929", Except.error "rate limited"⟩] =
      Except.error e :=
  (run_all_analyzers_all_or_nothing
    [⟨"google", "gemini-2.5-pro", Except.ok ⟨none, "Neutral", 0, 0, none, []⟩⟩,
     ⟨"anthropic", "claude-sonnet-4-5-20250929", Except.error "rate limited"⟩]).1.mpr
    ⟨⟨"anthropic", "claude-sonnet-4-5-20250929", Except.error "rate limited"⟩,
      by simp, "rate limited", rfl⟩

/-! ## Persisting analyses (process_article._persist_results) -/

/-- An `article_analyses` row, projected to the uniqueness-constraint columns
plus the payload copied from the validated result. -/
structure AnalysisDbRow where
  article_id : ℕ
  model_provider : String
  model_name : String
  result : AnalysisResult
deriving DecidableEq

/-- The column pair of the `uq_article_analysis_provider` unique constraint. -/
def analysisKey (r : AnalysisDbRow) : ℕ × String := (r.article_id, r.model_provider)

/-- The rows `_persist_results` adds to the session for one article. -/
def rowsOf (article_id : ℕ) (results : List (String × String × AnalysisResult)) :
    List AnalysisDbRow :=
  results.map (fun t => ⟨article_id, t.1, t.2.1, t.2.2⟩)

/-- The `uq_article_analysis_provider` invariant over a table: no two rows
share an `(article_id, model_provider)` pair. -/
def uniquePerProvider (table : List AnalysisDbRow) : Prop :=
  table.Pairwise (fun r s => analysisKey r ≠ analysisKey s)

instance (table : List AnalysisDbRow) : Decidable (uniquePerProvider table) :=
  inferInstanceAs (Decidable (List.Pairwise _ _))

/-- `_persist_results` (process_article): every tagged result is added to the
session unconditionally, then committed once; the store rejects the commit
iff an inserted row would violate `uq_article_analysis_provider` (against the
table or among the inserts themselves), in which case the `SQLAlchemyError`
is caught and the whole transaction rolled back. -/
def persistResults (table : List AnalysisDbRow) (article_id : ℕ)
    (results : List (String × String × AnalysisResult)) : List AnalysisDbRow :=
  let newRows := rowsOf article_id results
  if (∀ n ∈ newRows, ∀ t ∈ table, analysisKey n ≠ analysisKey t) ∧
      newRows.Pairwise (fun r s => analysisKey r ≠ analysisKey s) then
    table ++ newRows
  else
    table

/-- The behaviour claim C2 attributes to the persisting caller — skip every
provider that already has a stored row for this article and insert the rest —
stated as its own definition so the claim can be compared with
`persistResults` above (which implements no such skip). -/
def persistResultsSkip (table : List AnalysisDbRow) (article_id : ℕ)
    (results : List (String × String × AnalysisResult)) : List AnalysisDbRow :=
  table ++ rowsOf article_id
    (results.filter (fun t => decide (∀ r ∈ table, analysisKey r ≠ (article_id, t.1))))

/-- C2 counterexample: re-delivering a two-provider result set when one
provider already has a stored row does not skip that provider — the whole
transaction fails and is rolled back, so even the missing provider's row is
not inserted, unlike the skip semantics the claim describes. -/
theorem persist_results_does_not_skip :
    persistResults
        [⟨1, "anthropic", "claude-sonnet-4-5-20250929", ⟨none, "Bullish", 1, 1, none, []⟩⟩] 1
        [("anthropic", "claude-sonnet-4-5-20250929", ⟨none, "Bullish", 1, 1, none, []⟩),
         ("openai", "gpt-4o", ⟨none, "Neutral", 0, 1, none, []⟩)] =
      [⟨1, "anthropic", "claude-sonnet-4-5-20250929", ⟨none, "Bullish", 1, 1, none, []⟩⟩]
    ∧ persistResultsSkip
        [⟨1, "anthropic", "claude-sonnet-4-5-20250929", ⟨none, "Bullish", 1, 1, none, []⟩⟩] 1
        [("anthropic", "claude-sonnet-4-5-20250929", ⟨none, "Bullish", 1, 1, none, []⟩),
         ("openai", "gpt-4o", ⟨none, "Neutral", 0, 1, none, []⟩)] =
      [⟨1, "anthropic", "claude-sonnet-4-5-20250929", ⟨none, "Bullish", 1, 1, none, []⟩⟩,
       ⟨1, "openai", "gpt-4o", ⟨none, "Neutral", 0, 1, none, []⟩⟩]
    ∧ persistResults
        [⟨1, "anthropic", "claude-sonnet-4-5-20250929", ⟨none, "Bullish", 1, 1, none, []⟩⟩] 1
        [("anthropic", "claude-sonnet-4-5-20250929", ⟨none, "Bullish", 1, 1, none, []⟩),
         ("openai", "gpt-4o", ⟨none, "Neutral", 0, 1, none, []⟩)] ≠
      persistResultsSkip
        [⟨1, "anthropic", "claude-sonnet-4-5-20250929", ⟨none, "Bullish", 1, 1, none, []⟩⟩] 1
        [("anthropic", "claude-sonnet-4-5-20250929", ⟨none, "Bullish", 1, 1, none, []⟩),
         ("openai", "gpt-4o", ⟨none, "Neutral", 0, 1, none, []⟩)] := by
  refine ⟨by decide, by decide, by decide⟩

/-- C2 amended: although no skip happens, the at-most-one-row-per
`(article, provider)` invariant is preserved by every run, and a run never
adds a row for a pair that is already stored (on conflict the commit fails
and the transaction is rolled back wholesale). -/
theorem persist_results_preserves_uniqueness (table : List AnalysisDbRow)
    (article_id : ℕ) (results : List (String × String × AnalysisResult))
    (hinv : uniquePerProvider table) :
    uniquePerProvider (persistResults table article_id results)
    ∧ ∀ p : String, (∃ r ∈ table, analysisKey r = (article_id, p)) →
      (persistResults table article_id results).countP
          (fun r => decide (analysisKey r = (article_id, p))) =
        table.countP (fun r => decide (analysisKey r = (article_id, p))) := by
  rw [persistResults]
  by_cases hc : (∀ n ∈ rowsOf article_id results, ∀ t ∈ table,
      analysisKey n ≠ analysisKey t) ∧
      (rowsOf article_id results).Pairwise (fun r s => analysisKey r ≠ analysisKey s)
  · rw [if_pos hc]
    constructor
    · rw [uniquePerProvider, List.pairwise_append]
      exact ⟨hinv, hc.2, fun t ht n hn => (hc.1 n hn t ht).symm⟩
    · rintro p ⟨r, hr, hrkey⟩
      rw [List.countP_append]
      have hzero : (rowsOf article_id results).countP
          (fun s => decide (analysisKey s = (article_id, p))) = 0 := by
        rw [List.countP_eq_zero]
        intro n hn
        simp only [decide_eq_true_iff]
        intro hkey
        exact hc.1 n hn r hr (hkey.trans hrkey.symm)
      omega
  · rw [if_neg hc]
    exact ⟨hinv, fun _ _ => rfl⟩

/-- Witness for the amended C2 at a concrete table and result set. -/
theorem persist_results_preserves_uniqueness_witness :
    uniquePerProvider (persistResults
      [⟨1, "anthropic", "claude-sonnet-4-5-20250929", ⟨none, "Bullish", 1, 1, none, []⟩⟩] 1
      [("anthropic", "claude-sonnet-4-5-20250929", ⟨none, "Bullish", 1, 1, none, []⟩),
       ("google", "gemini-2.5-pro", ⟨none, "Neutral", 0, 1, none, []⟩)]) :=
  (persist_results_preserves_uniqueness
    [⟨1, "anthropic", "claude-sonnet-4-5-20250929", ⟨none, "Bullish", 1, 1, none, []⟩⟩] 1
    [("anthropic", "claude-sonnet-4-5-20250929", ⟨none, "Bullish", 1, 1, none, []⟩),
     ("google", "gemini-2.5-pro", ⟨none, "Neutral", 0, 1, none, []⟩)] (by decide)).1

/-! ## Digest dispatch and persistence (send_digest.main) -/

/-- A `digests` table row. -/
structure DigestRow where
  digest_type : String
  sent_at : ℤ
  article_count : ℕ
  discord_message_id : Option String
deriving DecidableEq

/-- A `digest_articles` junction row. -/
structure DigestArticleRow where
  digest_id : ℕ
  article_id : ℕ
  rank : ℕ
deriving DecidableEq

/-- The persisted state `send_digest.main` reads and writes. -/
structure DigestDb where
  digests : List DigestRow
  digest_articles : List DigestArticleRow
  articles : List Article
deriving DecidableEq

/-- `sent_at` of the most recent digest of a type
(`select(Digest).where(...).order_by(Digest.sent_at.desc())`, first row). -/
def lastSentAt (digests : List DigestRow) (digestType : String) : Option ℤ :=
  ((digests.filter (fun d => d.digest_type == digestType)).map (fun d => d.sent_at)).max?

/-- `DiscordNotifier.send_digest` (discord.py): posts the digest payload and
returns the message id parsed from the response (`none` for the usual
`204 No Content`); every exception — a failed POST included — is caught,
logged, and turned into a `None` return.  The call never raises. -/
def sendDigestCall (dispatchOk : Bool) (responseMessageId : Option String) : Option String :=
  if dispatchOk then responseMessageId else none

/-- `fetch_articles` (send_digest): articles created inside the window that
have at least one analysis (the inner join). -/
def fetchArticles (articles : List Article) (start stop : ℤ) : List Article :=
  articles.filter (fun a =>
    !(a.analyses.isEmpty) && decide (start ≤ a.created_at) && decide (a.created_at ≤ stop))

/-- `DISPATCH_TOLERANCE` against UTC timestamps (microseconds). -/
def DISPATCH_TOLERANCE_UTC : ℤ := 20 * 60 * 1000000

/-- `send_digest.main`, with its external inputs made explicit: the clock
(`nowUtc`/`nowEt` and the `astimezone` conversion `etToUtc`), whether the
digests webhook is configured, and the outcome of the webhook POST
(`dispatchOk`, plus the message id the response would carry).  Returns the
persisted state after the run. -/
def runDigestMain (db : DigestDb) (nowUtc : ℤ) (nowEt : ETTime) (etToUtc : ETTime → ℤ)
    (webhookConfigured dispatchOk : Bool) (responseMessageId : Option String) : DigestDb :=
  if !webhookConfigured then db
  else
    match determinePendingDigest nowEt with
    | none => db
    | some (digestType, scheduledEt) =>
      let scheduledUtc := etToUtc scheduledEt
      let lastSent := lastSentAt db.digests digestType
      if (match lastSent with
          | some t => decide (scheduledUtc - DISPATCH_TOLERANCE_UTC ≤ t)
          | none => false) then
        db
      else
        let periodStart := calculatePeriodStart digestType lastSent nowUtc
        let ranked := rankArticles (fetchArticles db.articles periodStart nowUtc)
        let messageId := sendDigestCall dispatchOk responseMessageId
        let digestId := db.digests.length
        let row : DigestRow := ⟨digestType, nowUtc, ranked.length, messageId⟩
        { digests := db.digests ++ [row]
          digest_articles := db.digest_articles ++
            (if ranked.isEmpty then []
             else ranked.enum.map (fun it => ⟨digestId, it.2.article_id, it.1 + 1⟩))
          articles :=
            if ranked.isEmpty then db.articles
            else db.articles.map (fun a =>
              if decide (a.id ∈ ranked.map (fun r => r.article_id)) &&
                  decide (a.included_in_digest_at = none) then
                { a with included_in_digest_at := some nowUtc }
              else a) }

/-- C1 is violated by the code: in a run whose webhook POST fails
(`dispatchOk = false`, a Tuesday 06:35 premarket window, empty store), a
`Digest` row with `sent_at = now` and a null message id is still created —
`send_digest` swallows the dispatch failure and `main` persists the row
unconditionally, while the claim requires the digest table to stay
unchanged. -/
theorem failed_dispatch_still_records_digest :
    (runDigestMain ⟨[], [], []⟩ 0 ⟨1, (6 * 3600 + 35 * 60) * 1000000⟩ (fun e => (e.us : ℤ))
        true false none).digests = [⟨"premarket", 0, 0, none⟩] := by
  have hpend : determinePendingDigest ⟨1, (6 * 3600 + 35 * 60) * 1000000⟩ =
      some ("premarket", ⟨1, (6 * 3600 + 30 * 60) * 1000000⟩) := by decide
  rw [runDigestMain]
  simp only [Bool.not_true, Bool.false_eq_true, if_false, hpend, lastSentAt,
    List.filter_nil, List.map_nil, List.max?_nil, fetchArticles, rankArticles,
    List.filterMap_nil, List.mergeSort_nil, sendDigestCall, List.length_nil,
    List.isEmpty_nil, if_true, List.nil_append]

end MarketNews
